import Mathlib

/-!
Verification of the game-server core of `RustWasmWebsocketDabble`.

The embedding follows `src/server/src/main.rs` (the authoritative server) and
`src/client/src/lib.rs` (same message types). The shared `HashMap`s behind
`Arc<Mutex<..>>` are modelled as association lists with explicit key lookup:
`GameState.players : HashMap<String, Player>` becomes `PlayersMap`, and the
connection registry `HashMap<SocketAddr, UnboundedSender<Message>>` becomes
`ClientsMap`, keying each connection by its port and recording whether its
channel still accepts messages (the send succeeds) as a `Bool`.
-/

set_option autoImplicit false

namespace GameServer

/-- Game constant from `main.rs`: `const CANVAS_WIDTH: u32 = 800`. -/
def CANVAS_WIDTH : Nat := 800

/-- Game constant from `main.rs`: `const CANVAS_HEIGHT: u32 = 600`. -/
def CANVAS_HEIGHT : Nat := 600

/-- Game constant from `main.rs`: `const PLAYER_SIZE: u32 = 50`. -/
def PLAYER_SIZE : Nat := 50

/-- Game constant from `main.rs`: `const PLAYER_SPEED: u32 = 5`. -/
def PLAYER_SPEED : Nat := 5

/-- `struct Player { id: String, x: u32, y: u32, color: String }` from both
`main.rs` and `lib.rs`. Coordinates are modelled as `Nat`; every subtraction in
the source is guarded by a strict comparison, so no `u32` wraparound occurs. -/
structure Player where
  id : String
  x : Nat
  y : Nat
  color : String
deriving DecidableEq, Repr

/-- `struct GameState { players: HashMap<String, Player> }`, modelled as an
association list from player id to `Player`. -/
abbrev PlayersMap := List (String × Player)

/-- The connection registry `HashMap<SocketAddr, UnboundedSender<Message>>`:
each live connection's port paired with whether sends on its channel succeed. -/
abbrev ClientsMap := List (Nat × Bool)

namespace Assoc

variable {α : Type} {β : Type} [DecidableEq α]

/-- Key lookup in an association list (`HashMap::get`). -/
def lookup : List (α × β) → α → Option β
  | [], _ => none
  | (k0, v) :: rest, k => if k0 = k then some v else lookup rest k

/-- Insert-or-replace (`HashMap::insert`). -/
def upsert : List (α × β) → α → β → List (α × β)
  | [], k, v => [(k, v)]
  | (k0, v0) :: rest, k, v =>
      if k0 = k then (k0, v) :: rest else (k0, v0) :: upsert rest k v

/-- Key removal (`HashMap::remove`). -/
def remove : List (α × β) → α → List (α × β)
  | [], _ => []
  | (k0, v0) :: rest, k =>
      if k0 = k then remove rest k else (k0, v0) :: remove rest k

/-- In-place update of the value at a key, a no-op when the key is absent
(`if let Some(v) = map.get_mut(&k) { ... }`). -/
def mutate : List (α × β) → α → (β → β) → List (α × β)
  | [], _, _ => []
  | (k0, v0) :: rest, k, f =>
      if k0 = k then (k0, f v0) :: rest else (k0, v0) :: mutate rest k f

theorem lookup_remove_self (l : List (α × β)) (k : α) :
    lookup (remove l k) k = none := by
  induction l with
  | nil => rfl
  | cons hd tl ih =>
      obtain ⟨k0, v0⟩ := hd
      by_cases h : k0 = k
      · simp [remove, h, ih]
      · simp [remove, lookup, h, ih]

theorem mutate_of_lookup_none (l : List (α × β)) (k : α) (f : β → β)
    (h : lookup l k = none) : mutate l k f = l := by
  induction l with
  | nil => rfl
  | cons hd tl ih =>
      obtain ⟨k0, v0⟩ := hd
      by_cases hk : k0 = k
      · simp [lookup, hk] at h
      · simp [lookup, hk] at h
        simp [mutate, hk, ih h]

theorem mutate_of_id (l : List (α × β)) (k : α) (f : β → β)
    (hf : ∀ v, f v = v) : mutate l k f = l := by
  induction l with
  | nil => rfl
  | cons hd tl ih =>
      obtain ⟨k0, v0⟩ := hd
      by_cases hk : k0 = k
      · simp [mutate, hk, hf]
      · simp [mutate, hk, ih]

theorem lookup_mutate_self (l : List (α × β)) (k : α) (f : β → β) :
    lookup (mutate l k f) k = (lookup l k).map f := by
  induction l with
  | nil => rfl
  | cons hd tl ih =>
      obtain ⟨k0, v0⟩ := hd
      by_cases hk : k0 = k
      · simp [mutate, lookup, hk]
      · simp [mutate, lookup, hk, ih]

theorem mem_upsert {l : List (α × β)} {k : α} {v : β} {e : α × β}
    (h : e ∈ upsert l k v) : e ∈ l ∨ e.2 = v := by
  induction l with
  | nil => simp [upsert] at h; simp [h]
  | cons hd tl ih =>
      obtain ⟨k0, v0⟩ := hd
      by_cases hk : k0 = k
      · simp [upsert, hk] at h
        rcases h with h | h
        · right; simp [h]
        · left; simp [h]
      · simp [upsert, hk] at h
        rcases h with h | h
        · left; simp [h]
        · rcases ih h with h' | h'
          · left; simp [h']
          · right; exact h'

theorem mem_mutate {l : List (α × β)} {k : α} {f : β → β} {e : α × β}
    (h : e ∈ mutate l k f) : e ∈ l ∨ ∃ v, (k, v) ∈ l ∧ e.2 = f v := by
  induction l with
  | nil => simp [mutate] at h
  | cons hd tl ih =>
      obtain ⟨k0, v0⟩ := hd
      by_cases hk : k0 = k
      · simp [mutate, hk] at h
        rcases h with h | h
        · right; exact ⟨v0, by simp [hk], by simp [h]⟩
        · left; simp [h]
      · simp [mutate, hk] at h
        rcases h with h | h
        · left; simp [h]
        · rcases ih h with h' | ⟨v, hv, he⟩
          · left; simp [h']
          · right; exact ⟨v, by simp [hv], he⟩

theorem mem_remove {l : List (α × β)} {k : α} {e : α × β}
    (h : e ∈ remove l k) : e ∈ l := by
  induction l with
  | nil => simp [remove] at h
  | cons hd tl ih =>
      obtain ⟨k0, v0⟩ := hd
      by_cases hk : k0 = k
      · simp [remove, hk] at h
        simp [ih h]
      · simp [remove, hk] at h
        rcases h with h | h
        · simp [h]
        · simp [ih h]

end Assoc

/-- The direction-dependent position update from `main.rs` lines 146-168:
each arm moves by `PLAYER_SPEED` only when its strict guard holds, and any
other direction string falls through to `_ => {}`. -/
def applyMove (direction : String) (p : Player) : Player :=
  if direction = "w" then
    if p.y > PLAYER_SPEED then { p with y := p.y - PLAYER_SPEED } else p
  else if direction = "a" then
    if p.x > PLAYER_SPEED then { p with x := p.x - PLAYER_SPEED } else p
  else if direction = "s" then
    if p.y < CANVAS_HEIGHT - PLAYER_SIZE - PLAYER_SPEED then
      { p with y := p.y + PLAYER_SPEED }
    else p
  else if direction = "d" then
    if p.x < CANVAS_WIDTH - PLAYER_SIZE - PLAYER_SPEED then
      { p with x := p.x + PLAYER_SPEED }
    else p
  else p

/-- The fixed color palette from `main.rs` line 82. -/
def colors : List String :=
  ["#FF0000", "#00FF00", "#0000FF", "#FFFF00", "#FF00FF", "#00FFFF"]

/-- The player id derived from the connection's port,
`format!("player_{}", addr.port())`. -/
def playerIdOfPort (port : Nat) : String := "player_" ++ toString port

/-- The player created at connection time (`main.rs` lines 81-91): id from the
port, color `colors[port % colors.len()]`, spawn at
`(100 + port % 400, 100 + port % 300)`. -/
def mkPlayer (port : Nat) : Player :=
  { id := playerIdOfPort port
    x := 100 + port % 400
    y := 100 + port % 300
    color := colors.getD (port % colors.length) "" }

/-- The canvas-bounds invariant from the spec:
`0 <= x <= CANVAS_WIDTH - PLAYER_SIZE` and
`0 <= y <= CANVAS_HEIGHT - PLAYER_SIZE`. -/
def inBounds (p : Player) : Prop :=
  p.x ≤ CANVAS_WIDTH - PLAYER_SIZE ∧ p.y ≤ CANVAS_HEIGHT - PLAYER_SIZE

instance (p : Player) : Decidable (inBounds p) := by
  unfold inBounds; infer_instance

theorem applyMove_inBounds (direction : String) (p : Player)
    (h : inBounds p) : inBounds (applyMove direction p) := by
  obtain ⟨hx, hy⟩ := h
  unfold applyMove
  simp only [inBounds, CANVAS_WIDTH, CANVAS_HEIGHT, PLAYER_SIZE, PLAYER_SPEED] at *
  split_ifs <;> simp_all <;> omega

theorem applyMove_other (direction : String) (p : Player)
    (hw : direction ≠ "w") (ha : direction ≠ "a") (hs : direction ≠ "s")
    (hd : direction ≠ "d") : applyMove direction p = p := by
  unfold applyMove
  simp [hw, ha, hs, hd]

theorem mkPlayer_inBounds (port : Nat) : inBounds (mkPlayer port) := by
  have h400 : port % 400 < 400 := Nat.mod_lt _ (by norm_num)
  have h300 : port % 300 < 300 := Nat.mod_lt _ (by norm_num)
  simp only [inBounds, mkPlayer, CANVAS_WIDTH, CANVAS_HEIGHT, PLAYER_SIZE]
  omega

/-- A JSON value, the abstraction of a serde_json text frame. Text frames are
modelled at the level of their parsed JSON tree; a frame that is not valid
JSON at all behaves like any other undecodable frame. -/
inductive Json where
  | str (s : String)
  | num (n : Nat)
  | obj (fields : List (String × Json))
  | null
deriving Repr

/-- First value stored under a key of a JSON object. -/
def jsonLookup : List (String × Json) → String → Option Json
  | [], _ => none
  | (k0, v) :: rest, k => if k0 = k then some v else jsonLookup rest k

/-- Project a string out of an optional JSON value. -/
def asStr : Option Json → Option String
  | some (.str s) => some s
  | _ => none

/-- Project a number out of an optional JSON value. -/
def asNat : Option Json → Option Nat
  | some (.num n) => some n
  | _ => none

/-- serde serialization of `Player` (named struct, fields in declaration
order): `{"id": .., "x": .., "y": .., "color": ..}`. -/
def encodePlayer (p : Player) : Json :=
  .obj [("id", .str p.id), ("x", .num p.x), ("y", .num p.y),
        ("color", .str p.color)]

/-- serde serialization of `GameState`: `{"players": {"<id>": <player>, ..}}`. -/
def encodeGameState (players : PlayersMap) : Json :=
  .obj [("players", .obj (players.map (fun kv => (kv.1, encodePlayer kv.2))))]

/-- serde serialization of `ServerMessage`: `{"game_state": <game state>}`.
This is the frame text `serde_json::to_string(&ServerMessage { game_state })`
produces, at the JSON-tree level. -/
def encodeServerMessage (players : PlayersMap) : Json :=
  .obj [("game_state", encodeGameState players)]

/-- serde deserialization of `Player`: an object carrying all four fields. -/
def decodePlayer (j : Json) : Option Player :=
  match j with
  | .obj fields =>
      match asStr (jsonLookup fields "id"), asNat (jsonLookup fields "x"),
            asNat (jsonLookup fields "y"), asStr (jsonLookup fields "color") with
      | some id, some x, some y, some color => some ⟨id, x, y, color⟩
      | _, _, _, _ => none
  | _ => none

/-- serde deserialization of the `players` map: every value must decode as a
`Player`. -/
def decodePlayersMap : List (String × Json) → Option PlayersMap
  | [] => some []
  | (k, v) :: rest =>
      match decodePlayer v, decodePlayersMap rest with
      | some p, some ps => some ((k, p) :: ps)
      | _, _ => none

/-- serde deserialization of `GameState`. -/
def decodeGameState (j : Json) : Option PlayersMap :=
  match j with
  | .obj fields =>
      match jsonLookup fields "players" with
      | some (.obj pfields) => decodePlayersMap pfields
      | _ => none
  | _ => none

/-- serde deserialization of `ServerMessage`
(`serde_json::from_str::<ServerMessage>` in `lib.rs`). -/
def decodeServerMessage (j : Json) : Option PlayersMap :=
  match j with
  | .obj fields =>
      match jsonLookup fields "game_state" with
      | some g => decodeGameState g
      | none => none
  | _ => none

/-- `enum ClientMessage { Move { direction: String }, Join }` from both halves. -/
inductive ClientMessage where
  | Move (direction : String)
  | Join
deriving DecidableEq, Repr

/-- serde deserialization of the externally tagged `ClientMessage`
(`serde_json::from_str::<ClientMessage>` in `main.rs`): `{"Move":
{"direction": ..}}`, and `"Join"` or `{"Join": null}` for the unit variant. -/
def decodeClientMessage (j : Json) : Option ClientMessage :=
  match j with
  | .str s => if s = "Join" then some .Join else none
  | .obj [("Move", .obj fields)] =>
      match asStr (jsonLookup fields "direction") with
      | some d => some (.Move d)
      | none => none
  | .obj [("Join", .null)] => some .Join
  | _ => none

/-- serde serialization of the externally tagged `ClientMessage`
(`serde_json::to_string(&msg)` in `lib.rs`): `{"Move": {"direction": ..}}`
for a move, `"Join"` for the unit variant. -/
def encodeClientMessage : ClientMessage → Json
  | .Move direction => .obj [("Move", .obj [("direction", .str direction)])]
  | .Join => .str "Join"

theorem decodeClientMessage_encode (msg : ClientMessage) :
    decodeClientMessage (encodeClientMessage msg) = some msg := by
  cases msg <;> rfl

theorem decodePlayer_encodePlayer (p : Player) :
    decodePlayer (encodePlayer p) = some p := rfl

theorem decodePlayersMap_encode (players : PlayersMap) :
    decodePlayersMap (players.map (fun kv => (kv.1, encodePlayer kv.2))) =
      some players := by
  induction players with
  | nil => rfl
  | cons hd tl ih =>
      obtain ⟨k, p⟩ := hd
      simp [decodePlayersMap, decodePlayer_encodePlayer, ih]

/-- The broadcast engine `broadcast_game_state` (`main.rs` lines 216-236):
snapshot and encode the world once, then enqueue that frame onto every
registered connection's channel; an enqueue that fails (the `Bool` is
`false`) is logged and skipped. The result lists the successful deliveries. -/
def broadcastGameState (players : PlayersMap) (clients : ClientsMap) :
    List (Nat × Json) :=
  clients.filterMap fun c =>
    if c.2 then some (c.1, encodeServerMessage players) else none

/-- One iteration of the inbound `rx.next()` loop, either a delivered message
(`Ok(Message::Text(..))`, carried as its JSON tree) or a receive error
(`Err(..)`, which breaks the loop). -/
inductive InEvent where
  | text (frame : Json)
  | recvErr
deriving Repr

/-- Processing of one received text frame (`main.rs` lines 140-182): decode
it as a `ClientMessage`; on `Move` mutate this connection's player and report
that a broadcast is triggered; on `Join` only log; on decode error only log.
Returns the new players map and whether `broadcast_game_state` is called. -/
def inboundStep (playerId : String) (players : PlayersMap) (frame : Json) :
    PlayersMap × Bool :=
  match decodeClientMessage frame with
  | some (.Move direction) =>
      (Assoc.mutate players playerId (applyMove direction), true)
  | some .Join => (players, false)
  | none => (players, false)

/-- The inbound loop over a finite schedule of receive events: a receive
error breaks the loop, a text frame is processed by `inboundStep`. Returns
the players map when the loop exits and the snapshots broadcast along the
way, in order. -/
def runInbound (playerId : String) (players : PlayersMap) :
    List InEvent → PlayersMap × List PlayersMap
  | [] => (players, [])
  | .recvErr :: _ => (players, [])
  | .text frame :: rest =>
      let step := inboundStep playerId players frame
      let tail := runInbound playerId step.1 rest
      (tail.1, (if step.2 then [step.1] else []) ++ tail.2)

/-- The players map after each processed inbound event, while the inbound
loop is still running (before the post-loop cleanup). -/
def inboundStates (playerId : String) (players : PlayersMap) :
    List InEvent → List PlayersMap
  | [] => []
  | .recvErr :: _ => []
  | .text frame :: rest =>
      let next := (inboundStep playerId players frame).1
      next :: inboundStates playerId next rest

/-- Observable actions of one `handle_connection` call, in program order. -/
inductive Action where
  | upsertPlayer (id : String) (p : Player)
  | register (port : Nat)
  | sendInitial (port : Nat) (snap : PlayersMap)
  | broadcast (snap : PlayersMap)
  | removePlayer (id : String)
  | deregister (port : Nat)
  | cancelForward
deriving DecidableEq, Repr

/-- Result of one `handle_connection` call: the final shared world state and
connection registry, and the trace of observable actions. -/
structure SessionResult where
  players : PlayersMap
  clients : ClientsMap
  trace : List Action
deriving DecidableEq, Repr

/-- The per-connection session `handle_connection` (`main.rs` lines 72-214),
as a function of its inputs: the connection's port, whether its outbound
channel stays open (`chanOk`), whether the WebSocket handshake
(`accept_async`, line 100) succeeds, whether the point-to-point initial
snapshot send (line 120) succeeds, and the schedule of inbound receive
events. A failed handshake or initial send propagates out through `?`,
returning early; only when the inbound loop is reached and ends does the
cleanup run: remove the player, deregister the connection, broadcast once
more, abort the forwarding task. -/
def handleConnection (port : Nat) (chanOk handshakeOk initSendOk : Bool)
    (events : List InEvent) (players0 : PlayersMap) (clients0 : ClientsMap) :
    SessionResult :=
  let pid := playerIdOfPort port
  let players1 := Assoc.upsert players0 pid (mkPlayer port)
  let t0 := [Action.upsertPlayer pid (mkPlayer port)]
  if handshakeOk = false then
    { players := players1, clients := clients0, trace := t0 }
  else
    let clients1 := Assoc.upsert clients0 port chanOk
    let t1 := t0 ++ [Action.register port]
    if initSendOk = false then
      { players := players1, clients := clients1, trace := t1 }
    else
      let t2 := t1 ++ [Action.sendInitial port players1,
                       Action.broadcast players1]
      let inb := runInbound pid players1 events
      let players2 := Assoc.remove inb.1 pid
      let clients2 := Assoc.remove clients1 port
      { players := players2
        clients := clients2
        trace := t2 ++ inb.2.map Action.broadcast ++
          [Action.removePlayer pid, Action.deregister port,
           Action.broadcast players2, Action.cancelForward] }

/-- The outbound forwarding task (`main.rs` lines 126-133): pop each frame
queued on this connection's channel and write it to the socket; on the first
write failure, log and `break`. `writeResults` injects the outcome of each
write (exhaustion of the list means all remaining writes succeed). Returns
the frames actually written, in order. The task touches neither the world
state nor the registry. -/
def forwardLoop : List Json → List Bool → List Json
  | [], _ => []
  | frame :: rest, [] => frame :: forwardLoop rest []
  | frame :: rest, ok :: wr =>
      if ok then frame :: forwardLoop rest wr else []

/-- The frames enqueued onto this connection's own channel during its
session: one encoded snapshot per broadcast in the trace, provided the
channel accepts sends. -/
def queuedFrames (r : SessionResult) (chanOk : Bool) : List Json :=
  if chanOk then
    r.trace.filterMap fun a =>
      match a with
      | .broadcast snap => some (encodeServerMessage snap)
      | _ => none
  else []

/-- A session together with its forwarding task: the session state machine
runs on the inbound side, while the forwarding task consumes the queued
frames subject to the injected write outcomes. -/
def sessionRun (port : Nat) (chanOk handshakeOk initSendOk : Bool)
    (events : List InEvent) (players0 : PlayersMap) (clients0 : ClientsMap)
    (writeResults : List Bool) : SessionResult × List Json :=
  let r := handleConnection port chanOk handshakeOk initSendOk events
    players0 clients0
  (r, forwardLoop (queuedFrames r chanOk) writeResults)

/-- A world-level operation, as claimable from any connection's session:
a join (keyed by the joining connection's port), a movement command, or a
disconnect. -/
inductive Op where
  | join (port : Nat)
  | move (id : String) (direction : String)
  | disconnect (id : String)
deriving Repr

/-- Effect of one operation on the shared players map: join inserts the
port-derived player, move runs the guarded position update on the targeted
player, disconnect removes the player. -/
def stepWorld (players : PlayersMap) : Op → PlayersMap
  | .join port => Assoc.upsert players (playerIdOfPort port) (mkPlayer port)
  | .move id direction => Assoc.mutate players id (applyMove direction)
  | .disconnect id => Assoc.remove players id

/-- The players map reached from `players` by a sequence of operations. -/
def runOps (players : PlayersMap) (ops : List Op) : PlayersMap :=
  ops.foldl stepWorld players

theorem stepWorld_inBounds (players : PlayersMap) (op : Op)
    (h : ∀ e ∈ players, inBounds e.2) :
    ∀ e ∈ stepWorld players op, inBounds e.2 := by
  intro e he
  cases op with
  | join port =>
      rcases Assoc.mem_upsert he with h' | h'
      · exact h e h'
      · rw [h']; exact mkPlayer_inBounds port
  | move id direction =>
      rcases Assoc.mem_mutate he with h' | ⟨v, hv, h'⟩
      · exact h e h'
      · rw [h']; exact applyMove_inBounds direction v (h _ hv)
  | disconnect id => exact h e (Assoc.mem_remove he)

theorem runOps_inBounds (players : PlayersMap) (ops : List Op)
    (h : ∀ e ∈ players, inBounds e.2) :
    ∀ e ∈ runOps players ops, inBounds e.2 := by
  induction ops generalizing players with
  | nil => exact h
  | cons op rest ih => exact ih _ (stepWorld_inBounds players op h)

/-- A world with one in-bounds player whose `y` is exactly `PLAYER_SPEED`,
where the guarded update and the claimed clamp disagree. -/
def boundaryPlayer : Player :=
  { id := "player_3", x := 100, y := 5, color := "#FFFF00" }

/-- The `PlayersMap` containing only `boundaryPlayer`. -/
def boundaryWorld : PlayersMap := [("player_3", boundaryPlayer)]

/-- C1 (counterexample): at `y = 5` (within bounds) a `Move "w"` leaves `y`
at `5`, while the claim's `max(old - SPEED, 0)` formula demands `0`: the
code rejects a move whose guard fails instead of clamping the result. -/
theorem C1_counterexample :
    inBounds boundaryPlayer
    ∧ (Assoc.lookup (Assoc.mutate boundaryWorld "player_3" (applyMove "w"))
        "player_3").map Player.y = some 5
    ∧ (5 : Nat) ≠ max (5 - PLAYER_SPEED) 0 := by decide

/-- C1 (amended): a `Move` on a player present in the world replaces that
player by the guarded update: the affected coordinate moves by exactly
`PLAYER_SPEED` when the strict guard holds (`SPEED < y` for `"w"`,
`SPEED < x` for `"a"`, `y < CANVAS_HEIGHT - PLAYER_SIZE - SPEED` for `"s"`,
`x < CANVAS_WIDTH - PLAYER_SIZE - SPEED` for `"d"`) and is left unchanged
otherwise — the move is rejected outright at the boundary, not clamped — and
the result always stays within the canvas bounds. -/
theorem C1_move_guarded (m : PlayersMap) (pid : String) (p : Player)
    (direction : String) (hm : Assoc.lookup m pid = some p)
    (hx : p.x ≤ CANVAS_WIDTH - PLAYER_SIZE)
    (hy : p.y ≤ CANVAS_HEIGHT - PLAYER_SIZE) :
    Assoc.lookup (Assoc.mutate m pid (applyMove direction)) pid =
      some (applyMove direction p)
    ∧ applyMove "w" p =
        (if PLAYER_SPEED < p.y then { p with y := p.y - PLAYER_SPEED } else p)
    ∧ applyMove "a" p =
        (if PLAYER_SPEED < p.x then { p with x := p.x - PLAYER_SPEED } else p)
    ∧ applyMove "s" p =
        (if p.y < CANVAS_HEIGHT - PLAYER_SIZE - PLAYER_SPEED then
          { p with y := p.y + PLAYER_SPEED } else p)
    ∧ applyMove "d" p =
        (if p.x < CANVAS_WIDTH - PLAYER_SIZE - PLAYER_SPEED then
          { p with x := p.x + PLAYER_SPEED } else p)
    ∧ inBounds (applyMove direction p) := by
  refine ⟨?_, rfl, rfl, rfl, rfl, applyMove_inBounds direction p ⟨hx, hy⟩⟩
  rw [Assoc.lookup_mutate_self, hm]
  rfl

/-- Witness for C1 (amended) at a concrete in-bounds world. -/
theorem C1_move_guarded_witness :
    Assoc.lookup (Assoc.mutate [("player_5", ⟨"player_5", 200, 300, "#0000FF"⟩)]
      "player_5" (applyMove "d")) "player_5" =
      some (applyMove "d" ⟨"player_5", 200, 300, "#0000FF"⟩) :=
  (C1_move_guarded [("player_5", ⟨"player_5", 200, 300, "#0000FF"⟩)] "player_5"
    ⟨"player_5", 200, 300, "#0000FF"⟩ "d" (by decide) (by decide) (by decide)).1

/-- C2: every player in a world reached from the empty world by any sequence
of join, move, and disconnect operations lies within
`[0, CANVAS_WIDTH - PLAYER_SIZE] × [0, CANVAS_HEIGHT - PLAYER_SIZE]`. -/
theorem C2_reachable_in_bounds (ops : List Op) (k : String) (p : Player)
    (h : (k, p) ∈ runOps [] ops) :
    0 ≤ p.x ∧ p.x ≤ CANVAS_WIDTH - PLAYER_SIZE
    ∧ 0 ≤ p.y ∧ p.y ≤ CANVAS_HEIGHT - PLAYER_SIZE := by
  have hb := runOps_inBounds [] ops (by simp) (k, p) h
  exact ⟨Nat.zero_le _, hb.1, Nat.zero_le _, hb.2⟩

/-- Witness for C2 at the world reached by a join followed by a move. -/
theorem C2_reachable_in_bounds_witness :
    0 ≤ (applyMove "d" (mkPlayer 0)).x
    ∧ (applyMove "d" (mkPlayer 0)).x ≤ CANVAS_WIDTH - PLAYER_SIZE
    ∧ 0 ≤ (applyMove "d" (mkPlayer 0)).y
    ∧ (applyMove "d" (mkPlayer 0)).y ≤ CANVAS_HEIGHT - PLAYER_SIZE :=
  C2_reachable_in_bounds [Op.join 0, Op.move "player_0" "d"] "player_0"
    (applyMove "d" (mkPlayer 0)) (by decide)

/-- C7: a `Move` whose target player id is absent from the world is a silent
no-op — processing the frame leaves the players map exactly unchanged, as
does the underlying guarded mutation. -/
theorem C7_move_absent_noop (players : PlayersMap) (pid direction : String)
    (h : Assoc.lookup players pid = none) :
    (inboundStep pid players (encodeClientMessage (.Move direction))).1 = players
    ∧ Assoc.mutate players pid (applyMove direction) = players := by
  have hmut := Assoc.mutate_of_lookup_none players pid (applyMove direction) h
  exact ⟨hmut, hmut⟩

/-- Witness for C7 on a world not containing the mover. -/
theorem C7_move_absent_noop_witness :
    (inboundStep "player_9" [("player_2", mkPlayer 2)]
      (encodeClientMessage (.Move "w"))).1 = [("player_2", mkPlayer 2)] :=
  (C7_move_absent_noop [("player_2", mkPlayer 2)] "player_9" "w" (by decide)).1

/-- C8: encoding a world snapshot as a `ServerMessage` frame and decoding it
back yields exactly the snapshotted players map (codec round-trip law). -/
theorem C8_roundtrip (players : PlayersMap) :
    decodeServerMessage (encodeServerMessage players) = some players := by
  show decodePlayersMap (players.map fun kv => (kv.1, encodePlayer kv.2)) =
    some players
  exact decodePlayersMap_encode players

/-- C10: the join spawn is a pure function of the port: id `"player_" ++ port`,
color the fixed six-color palette indexed by `port % 6`, spawn at
`(100 + port % 400, 100 + port % 300)`, always inside
`[100, 499] × [100, 399]`. -/
theorem C10_join_deterministic (port : Nat) :
    (mkPlayer port).id = "player_" ++ toString port
    ∧ (mkPlayer port).color =
        ["#FF0000", "#00FF00", "#0000FF", "#FFFF00", "#FF00FF",
         "#00FFFF"].getD (port % 6) ""
    ∧ (mkPlayer port).x = 100 + port % 400
    ∧ (mkPlayer port).y = 100 + port % 300
    ∧ 100 ≤ (mkPlayer port).x ∧ (mkPlayer port).x ≤ 499
    ∧ 100 ≤ (mkPlayer port).y ∧ (mkPlayer port).y ≤ 399 := by
  have h400 : port % 400 < 400 := Nat.mod_lt _ (by norm_num)
  have h300 : port % 300 < 300 := Nat.mod_lt _ (by norm_num)
  refine ⟨rfl, rfl, rfl, rfl, ?_, ?_, ?_, ?_⟩ <;> simp [mkPlayer] <;> omega

/-- C5: a broadcast enqueues the single encoded snapshot frame onto every
registered connection whose channel accepts it — so every delivered frame is
that one frame, a connection with a working channel always receives it, and a
connection whose enqueue fails is skipped without affecting delivery to any
other connection. -/
theorem C5_broadcast_isolated (players : PlayersMap) (clients : ClientsMap)
    (port : Nat) :
    ((port, true) ∈ clients →
      (port, encodeServerMessage players) ∈ broadcastGameState players clients)
    ∧ (∀ e ∈ broadcastGameState players clients,
        e.2 = encodeServerMessage players)
    ∧ (∀ pre post : ClientsMap, ∀ q : Nat,
        broadcastGameState players (pre ++ (q, false) :: post) =
          broadcastGameState players (pre ++ post)) := by
  refine ⟨?_, ?_, ?_⟩
  · intro h
    exact List.mem_filterMap.2 ⟨(port, true), h, by simp⟩
  · intro e he
    rcases List.mem_filterMap.1 he with ⟨c, _, hc⟩
    by_cases hb : c.2 <;> simp [hb] at hc
    simp [← hc]
  · intro pre post q
    simp [broadcastGameState, List.filterMap_append]

/-- Witness for C5: with one dead channel ahead of it, the live connection
still receives the encoded snapshot. -/
theorem C5_broadcast_isolated_witness :
    (7, encodeServerMessage [("player_7", mkPlayer 7)]) ∈
      broadcastGameState [("player_7", mkPlayer 7)] [(9, false), (7, true)] :=
  (C5_broadcast_isolated [("player_7", mkPlayer 7)] [(9, false), (7, true)]
    7).1 (by decide)

/-- C6: a received frame that fails to decode as a `ClientMessage` is
dropped: the players map is unchanged, no broadcast is triggered, and the
inbound loop carries on with the remaining events exactly as if the bad
frame had never arrived. -/
theorem C6_decode_error_dropped (playerId : String) (players : PlayersMap)
    (frame : Json) (rest : List InEvent)
    (h : decodeClientMessage frame = none) :
    inboundStep playerId players frame = (players, false)
    ∧ runInbound playerId players (.text frame :: rest) =
        runInbound playerId players rest := by
  have h1 : inboundStep playerId players frame = (players, false) := by
    unfold inboundStep
    rw [h]
  exact ⟨h1, by simp [runInbound, h1]⟩

/-- Witness for C6 on a frame that is valid JSON but no `ClientMessage`. -/
theorem C6_decode_error_dropped_witness :
    inboundStep "player_4" [("player_4", mkPlayer 4)] (Json.num 0) =
      ([("player_4", mkPlayer 4)], false) :=
  (C6_decode_error_dropped "player_4" [("player_4", mkPlayer 4)] (Json.num 0)
    [] (by decide)).1

/-- C9: a well-formed `Move` whose direction is none of `"w"`, `"a"`, `"s"`,
`"d"` falls through the match without touching any player, yet the handler
still triggers a broadcast of the unchanged world. -/
theorem C9_unknown_direction_broadcast (playerId : String)
    (players : PlayersMap) (direction : String) (rest : List InEvent)
    (hw : direction ≠ "w") (ha : direction ≠ "a") (hs : direction ≠ "s")
    (hd : direction ≠ "d") :
    inboundStep playerId players (encodeClientMessage (.Move direction)) =
      (players, true)
    ∧ (runInbound playerId players
        (.text (encodeClientMessage (.Move direction)) :: rest)).2 =
        players :: (runInbound playerId players rest).2 := by
  have hmut : Assoc.mutate players playerId (applyMove direction) = players :=
    Assoc.mutate_of_id _ _ _ fun p => applyMove_other direction p hw ha hs hd
  have h1 : inboundStep playerId players
      (encodeClientMessage (.Move direction)) = (players, true) := by
    show (Assoc.mutate players playerId (applyMove direction), true) =
      (players, true)
    rw [hmut]
  exact ⟨h1, by simp [runInbound, h1]⟩

/-- Witness for C9 with the unknown direction `"x"`. -/
theorem C9_unknown_direction_broadcast_witness :
    inboundStep "player_6" [("player_6", mkPlayer 6)]
      (encodeClientMessage (.Move "x")) = ([("player_6", mkPlayer 6)], true) :=
  (C9_unknown_direction_broadcast "player_6" [("player_6", mkPlayer 6)] "x" []
    (by decide) (by decide) (by decide) (by decide)).1

/-- A session whose point-to-point initial snapshot send fails: the `?` on
`tx.send(..)` returns early, before the cleanup code. -/
def failedSendRun : SessionResult := handleConnection 1 true true false [] [] []

/-- C3 (counterexample): when the initial snapshot delivery fails, the
session terminates without removing the player or the registry entry — the
world still maps `"player_1"` and the registry still holds port `1`, and no
`removePlayer`/`deregister` action was performed. -/
theorem C3_counterexample :
    Assoc.lookup failedSendRun.players "player_1" = some (mkPlayer 1)
    ∧ Assoc.lookup failedSendRun.clients 1 = some true
    ∧ Action.removePlayer "player_1" ∉ failedSendRun.trace
    ∧ Action.deregister 1 ∉ failedSendRun.trace := by decide

/-- C3 (amended): once the session reaches the Active phase (handshake and
initial snapshot delivery succeeded), however its inbound loop ends, the
cleanup removes the player, then the registry entry, then performs one final
broadcast whose snapshot is the cleaned world (so it no longer contains the
departed id), then cancels the forwarding task — in exactly that order, and
afterwards neither the world nor the registry contains the connection. -/
theorem C3_active_close_cleanup (port : Nat) (chanOk : Bool)
    (events : List InEvent) (players0 : PlayersMap) (clients0 : ClientsMap) :
    Assoc.lookup (handleConnection port chanOk true true events players0
      clients0).players (playerIdOfPort port) = none
    ∧ Assoc.lookup (handleConnection port chanOk true true events players0
        clients0).clients port = none
    ∧ ∃ pre, (handleConnection port chanOk true true events players0
        clients0).trace =
        pre ++ [Action.removePlayer (playerIdOfPort port),
          Action.deregister port,
          Action.broadcast (handleConnection port chanOk true true events
            players0 clients0).players,
          Action.cancelForward] := by
  refine ⟨Assoc.lookup_remove_self _ _, Assoc.lookup_remove_self _ _, ?_⟩
  refine ⟨[Action.upsertPlayer (playerIdOfPort port) (mkPlayer port),
    Action.register port,
    Action.sendInitial port
      (Assoc.upsert players0 (playerIdOfPort port) (mkPlayer port)),
    Action.broadcast
      (Assoc.upsert players0 (playerIdOfPort port) (mkPlayer port))] ++
    (runInbound (playerIdOfPort port)
      (Assoc.upsert players0 (playerIdOfPort port) (mkPlayer port))
      events).2.map Action.broadcast, ?_⟩
  simp [handleConnection]

/-- The inbound schedule delivering one rightward move. -/
def moveRightEvents : List InEvent :=
  [InEvent.text (encodeClientMessage (.Move "d"))]

/-- C4 (counterexample): in a session whose very first outbound write fails
(nothing is ever written to the socket), the inbound loop nevertheless keeps
running and mutating the world: after it processes the pending move, the
player is still present — no Closed-entry cleanup was performed upon the
outbound failure. -/
theorem C4_counterexample :
    (sessionRun 2 true true true moveRightEvents [] [] [false]).2 = []
    ∧ inboundStates "player_2" (Assoc.upsert [] "player_2" (mkPlayer 2))
        moveRightEvents = [[("player_2", applyMove "d" (mkPlayer 2))]]
    ∧ Assoc.lookup [("player_2", applyMove "d" (mkPlayer 2))] "player_2" ≠
        none :=
  ⟨rfl, rfl, by decide⟩

/-- C4 (amended): outbound write outcomes never influence the session's
world state, registry, or action trace — the forwarding task's failure only
stops the forwarding itself — and the Closed-entry cleanup (`removePlayer`)
happens exactly when the session reached Active and its inbound loop ended,
i.e. the inbound loop's termination, never the outbound loop's failure, is
the authoritative close signal. -/
theorem C4_outbound_failure_not_close (port : Nat)
    (chanOk handshakeOk initSendOk : Bool) (events : List InEvent)
    (players0 : PlayersMap) (clients0 : ClientsMap) (w1 w2 : List Bool) :
    (sessionRun port chanOk handshakeOk initSendOk events players0 clients0
      w1).1 =
      (sessionRun port chanOk handshakeOk initSendOk events players0 clients0
        w2).1
    ∧ (Action.removePlayer (playerIdOfPort port) ∈
        (sessionRun port chanOk handshakeOk initSendOk events players0
          clients0 w1).1.trace ↔
        handshakeOk = true ∧ initSendOk = true) := by
  refine ⟨rfl, ?_⟩
  cases handshakeOk <;> cases initSendOk <;>
    simp [sessionRun, handleConnection]

/-- Witness for C4 (amended): cleanup does run once the Active phase was
reached and the inbound loop ended. -/
theorem C4_outbound_failure_not_close_witness :
    Action.removePlayer "player_8" ∈
      (sessionRun 8 true true true [] [] [] []).1.trace :=
  (C4_outbound_failure_not_close 8 true true true [] [] [] [] []).2.mpr
    ⟨rfl, rfl⟩

end GameServer
